import Mathlib

/-!
Shallow embedding of the repository source file src/main.py: a SQLAlchemy
demo with two mapped classes (User, Task), a session factory over a SQLite
engine, and two repository classes (UserRepository, TaskRepository).

Modelling notes, all traced to the source and to the documented behaviour of
the libraries it configures:

* The database state is the pair of tables (users, tasks), each a list of
  rows in rowid (insertion) order.
* `User.id` and `Task.id` are `INTEGER PRIMARY KEY` columns; SQLite assigns
  a fresh id of one more than the current maximum (1 for an empty table).
  No row is ever deleted in this system, so a running maximum is exact.
* `User.email` carries a UNIQUE constraint (`unique=True`, line 31), which
  SQLite enforces on INSERT and UPDATE.
* `Task.user_id` is declared `Mapped[int]` (line 47), a non-Optional
  mapped type, so SQLAlchemy 2.0 derives `nullable=False`: the column is
  NOT NULL and SQLite rejects a NULL value at flush time.
* The `ForeignKey("users.id")` on `Task.user_id` is NOT enforced at run
  time: the sqlite3 driver leaves `PRAGMA foreign_keys` OFF and the engine
  setup (line 13) does not enable it, so a Task may reference a missing
  User id.
* Each repository method opens a session with `get_session()` in a `with`
  block: read methods run a query and close the session; mutating methods
  commit on success and on failure roll back and re-raise the caught
  exception unchanged (lines 66-68, 105-107, 136-138).
* Constraint failures surface as `sqlalchemy.exc.IntegrityError`; we model
  the error kinds as a small inductive type naming the violated constraint.
-/

/-- Storage-layer error kinds (IntegrityError) surfaced unchanged by the
repositories after rollback. The string names the violated constraint. -/
inductive DBError where
  | uniqueViolation : String → DBError
  | notNullViolation : String → DBError
  deriving DecidableEq, Repr

/-- A row of the `users` table (class User, src/main.py lines 27-34). -/
structure UserRow where
  id : Int
  name : String
  email : String
  age : Int
  deriving DecidableEq, Repr

/-- A row of the `tasks` table (class Task, src/main.py lines 40-48).
`user_id` is an `Option Int` at the SQL value level; the NOT NULL
constraint derived from the non-Optional `Mapped[int]` forbids `none`
from ever being committed. -/
structure TaskRow where
  id : Int
  title : String
  description : String
  completed : Bool
  user_id : Option Int
  deriving DecidableEq, Repr

/-- The committed database state: both tables in rowid order. -/
structure DB where
  users : List UserRow
  tasks : List TaskRow
  deriving DecidableEq, Repr

/-- The state right after `Base.metadata.drop_all` / `create_all`
(src/main.py lines 54-55): both tables empty. -/
def emptyDB : DB := ⟨[], []⟩

/-- An equality filter over User columns, the embedding of the
`filter_by(**filter_by)` keyword dictionary: each present field must be
equal, absent fields are unconstrained, all conditions ANDed. -/
structure UserFilter where
  id : Option Int := none
  name : Option String := none
  email : Option String := none
  age : Option Int := none
  deriving DecidableEq, Repr

/-- An equality filter over Task columns. A present `user_id` entry
compares the column (which may be NULL) against the given value. -/
structure TaskFilter where
  id : Option Int := none
  title : Option String := none
  description : Option String := none
  completed : Option Bool := none
  user_id : Option (Option Int) := none
  deriving DecidableEq, Repr

/-- The `**kwargs` of `update_user`: a constant value per updated column,
absent columns untouched. -/
structure UserUpdate where
  id : Option Int := none
  name : Option String := none
  email : Option String := none
  age : Option Int := none
  deriving DecidableEq, Repr

/-- `filter_by` equality semantics for User rows. -/
def matchesUser (f : UserFilter) (u : UserRow) : Bool :=
  f.id.all (fun i => u.id == i) && f.name.all (fun s => u.name == s) &&
    f.email.all (fun s => u.email == s) && f.age.all (fun a => u.age == a)

/-- `filter_by` equality semantics for Task rows. -/
def matchesTask (f : TaskFilter) (t : TaskRow) : Bool :=
  f.id.all (fun i => t.id == i) && f.title.all (fun s => t.title == s) &&
    f.description.all (fun s => t.description == s) &&
    f.completed.all (fun b => t.completed == b) &&
    f.user_id.all (fun v => t.user_id == v)

/-- The tasks owned by user id `uid` within a task table: the rows whose
`user_id` equals `uid` (a NULL `user_id` matches no user). -/
def ownTasks (ts : List TaskRow) (uid : Int) : List TaskRow :=
  ts.filter (fun t => t.user_id == some uid)

/-- Tasks of a user id in a database state. -/
def tasksOf (db : DB) (uid : Int) : List TaskRow := ownTasks db.tasks uid

/-- A User row together with its eagerly loaded tasks collection, the
result shape of `joinedload(User.tasks)` queries. -/
structure LoadedUser where
  user : UserRow
  tasks : List TaskRow
  deriving DecidableEq, Repr

/-- Attach the tasks collection to a User row (`joinedload(User.tasks)`). -/
def loadUser (db : DB) (u : UserRow) : LoadedUser := ⟨u, tasksOf db u.id⟩

/-- A unit-of-work: the committed state it was opened on and the pending
working state. `commit` publishes `pending`; closing the `with` block
without a commit (or after a rollback) leaves `committed` as the
database state. -/
structure Session where
  committed : DB
  pending : DB
  deriving DecidableEq, Repr

/-- `get_session()` (src/main.py lines 19-20): a fresh unit-of-work on the
current committed state. -/
def get_session (db : DB) : Session := ⟨db, db⟩

/-- SQLite rowid assignment for `INTEGER PRIMARY KEY`: one more than the
largest existing id, 1 for an empty table (no deletes ever occur). -/
def nextUserId (db : DB) : Int := db.users.foldl (fun m u => max m u.id) 0 + 1

/-- Same rowid assignment for the tasks table. -/
def nextTaskId (db : DB) : Int := db.tasks.foldl (fun m t => max m t.id) 0 + 1

/-- Whether some stored User already has this email: the condition under
which the UNIQUE index on users.email rejects an INSERT. -/
def emailTaken (db : DB) (e : String) : Bool := db.users.any (fun u => u.email == e)

/-- `UserRepository.create_user` (src/main.py lines 59-68): construct a
User, add it, commit. On a unique-email violation the commit raises
IntegrityError; the handler rolls back and re-raises, so the committed
state is unchanged. On success the session commits the pending insert. -/
def create_user (db : DB) (name email : String) (age : Int) :
    Except DBError UserRow × DB :=
  let s := get_session db
  let u : UserRow := ⟨nextUserId s.pending, name, email, age⟩
  if emailTaken s.pending email then
    (Except.error (DBError.uniqueViolation "users.email"), s.committed)
  else
    (Except.ok u, { s.pending with users := s.pending.users ++ [u] })

/-- `UserRepository.get_user` (src/main.py lines 70-79): `None` filter
defaults to the empty dictionary; first matching row in storage order,
tasks joined in; `first()` yields `None` when nothing matches. -/
def get_user (db : DB) (filter_by : Option UserFilter) : Option LoadedUser × DB :=
  let f := filter_by.getD {}
  let s := get_session db
  (((s.pending.users.filter (matchesUser f)).head?).map (loadUser s.pending),
    s.committed)

/-- `UserRepository.get_users` (src/main.py lines 81-90): all matching
rows in storage order, tasks joined in. -/
def get_users (db : DB) (filter_by : Option UserFilter) : List LoadedUser × DB :=
  let f := filter_by.getD {}
  let s := get_session db
  ((s.pending.users.filter (matchesUser f)).map (loadUser s.pending), s.committed)

/-- The number of User rows matched by a filter. -/
def matchedCount (db : DB) (f : UserFilter) : Nat :=
  (db.users.filter (matchesUser f)).length

/-- Whether the bulk UPDATE of `update_user` violates the UNIQUE index on
users.email. The update writes one constant value per column, so SQLite
rejects it exactly when at least one row is updated and either two
distinct rows receive the same constant email or some untouched row
already holds it. A column not named in the kwargs is not rewritten and
triggers no check. -/
def emailConflict (db : DB) (f : UserFilter) (k : UserUpdate) : Bool :=
  match k.email with
  | none => false
  | some e =>
    decide (1 ≤ matchedCount db f) &&
      (decide (2 ≤ matchedCount db f) ||
        db.users.any (fun v => !matchesUser f v && v.email == e))

/-- Same check for the PRIMARY KEY index on users.id when the kwargs
assign the id column. -/
def idConflict (db : DB) (f : UserFilter) (k : UserUpdate) : Bool :=
  match k.id with
  | none => false
  | some i =>
    decide (1 ≤ matchedCount db f) &&
      (decide (2 ≤ matchedCount db f) ||
        db.users.any (fun v => !matchesUser f v && v.id == i))

/-- Apply the kwargs of `update_user` to one row: assigned columns take
the constant value, the rest keep theirs. -/
def applyUpdate (k : UserUpdate) (u : UserRow) : UserRow :=
  ⟨k.id.getD u.id, k.name.getD u.name, k.email.getD u.email, k.age.getD u.age⟩

/-- The effect of the bulk UPDATE statement on the users table: every
matching row receives the kwargs, the rest are untouched, positions
(rowids) preserved. -/
def updatedUsers (db : DB) (f : UserFilter) (k : UserUpdate) : List UserRow :=
  db.users.map (fun u => if matchesUser f u then applyUpdate k u else u)

/-- `UserRepository.update_user` (src/main.py lines 92-107): bulk-update
every matching row with the kwargs, commit, then re-run the same filter
and return the first match with tasks joined (`None` when nothing
matches). A constraint violation at commit rolls back and re-raises. -/
def update_user (db : DB) (filter_by : Option UserFilter) (kwargs : UserUpdate) :
    Except DBError (Option LoadedUser) × DB :=
  let f := filter_by.getD {}
  let s := get_session db
  if emailConflict s.pending f kwargs then
    (Except.error (DBError.uniqueViolation "users.email"), s.committed)
  else if idConflict s.pending f kwargs then
    (Except.error (DBError.uniqueViolation "users.id"), s.committed)
  else
    let db2 : DB := { s.pending with users := updatedUsers s.pending f kwargs }
    (Except.ok (((db2.users.filter (matchesUser f)).head?).map (loadUser db2)), db2)

/-- The row set of `users LEFT OUTER JOIN tasks ON users.id = tasks.user_id`
in storage order: every user paired with each of its tasks, or with a NULL
task row when it owns none. -/
def joinRows : List UserRow → List TaskRow → List (UserRow × Option TaskRow)
  | [], _ => []
  | u :: us, ts =>
    (if (ownTasks ts u.id).isEmpty then [(u, none)]
     else (ownTasks ts u.id).map (fun t => (u, some t))) ++ joinRows us ts

/-- `UserRepository.get_users_tasks_count` (src/main.py lines 109-118):
group the outer-join rows by `User.id` and emit
`(User.id, User.name, count(Task.id))` per group; `count` counts non-NULL
task ids, so a task-less user reports 0. Grouping is keyed on the primary
key, which is unique in every state this program produces, so one output
row per stored user, in storage order. -/
def get_users_tasks_count (db : DB) : List (Int × String × Nat) × DB :=
  let s := get_session db
  let rows := joinRows s.pending.users s.pending.tasks
  (s.pending.users.map (fun u =>
      (u.id, u.name,
        (rows.filter (fun r => r.1.id == u.id)).countP (fun r => r.2.isSome))),
    s.committed)

/-- `TaskRepository.create_task` (src/main.py lines 122-138): construct a
Task (the `user_id` parameter defaults to `None`), add it, commit. A NULL
`user_id` violates the NOT NULL constraint on tasks.user_id at flush, so
the commit raises IntegrityError and the handler rolls back and
re-raises. A non-NULL `user_id` commits even when it references no User,
because SQLite leaves foreign keys unenforced. -/
def create_task (db : DB) (title description : String) (completed : Bool)
    (user_id : Option Int) : Except DBError TaskRow × DB :=
  let s := get_session db
  let t : TaskRow := ⟨nextTaskId s.pending, title, description, completed, user_id⟩
  if user_id.isNone then
    (Except.error (DBError.notNullViolation "tasks.user_id"), s.committed)
  else
    (Except.ok t, { s.pending with tasks := s.pending.tasks ++ [t] })

/-- `TaskRepository.get_task` (src/main.py lines 140-144): first matching
Task in storage order, no eager loading. -/
def get_task (db : DB) (filter_by : Option TaskFilter) : Option TaskRow × DB :=
  let f := filter_by.getD {}
  let s := get_session db
  ((s.pending.tasks.filter (matchesTask f)).head?, s.committed)

/-- The database states reachable from the freshly created schema through
the repository operations. -/
inductive Reachable : DB → Prop where
  | init : Reachable emptyDB
  | createUser (db : DB) (n e : String) (a : Int) :
      Reachable db → Reachable (create_user db n e a).2
  | createTask (db : DB) (t d : String) (c : Bool) (uid : Option Int) :
      Reachable db → Reachable (create_task db t d c uid).2
  | updateUser (db : DB) (fb : Option UserFilter) (k : UserUpdate) :
      Reachable db → Reachable (update_user db fb k).2
  | getUser (db : DB) (fb : Option UserFilter) :
      Reachable db → Reachable (get_user db fb).2
  | getUsers (db : DB) (fb : Option UserFilter) :
      Reachable db → Reachable (get_users db fb).2
  | getTask (db : DB) (fb : Option TaskFilter) :
      Reachable db → Reachable (get_task db fb).2
  | getUsersTasksCount (db : DB) :
      Reachable db → Reachable (get_users_tasks_count db).2

/-- The storage-level invariant of the UNIQUE index: no two stored Users
share an email. -/
def emailsUnique (db : DB) : Prop :=
  db.users.Pairwise (fun u v => u.email ≠ v.email)

/-- Driver state after the first `create_user` call (src/main.py line 150). -/
def dbU1 : DB := (create_user emptyDB "John Doe" "john.doe@example.com" 30).2

/-- Driver state after the second `create_user` call (line 151). -/
def dbU2 : DB := (create_user dbU1 "John Snow" "john2.doe@example.com" 33).2

/-- Driver state after the third `create_user` call (line 152). -/
def dbU3 : DB := (create_user dbU2 "John 3" "john3.doe@example.com" 11).2

/-- Driver state after the `create_task` call (lines 154-156): three users
of which exactly the first owns exactly one task. -/
def dbDriver : DB := (create_task dbU3 "Buy groceries" "Buy groceries" false (some 1)).2

/-- A state with one user (id 1) and one task whose `user_id` is 2, an id
no user holds yet: insertable because SQLite does not enforce the foreign
key. -/
def dbDangling : DB :=
  (create_task (create_user emptyDB "a" "a@x" 1).2 "t" "d" false (some 2)).2

/-! ### General list lemmas -/

/-- The first element of a filtered list is the first element satisfying
the predicate. -/
theorem head?_filter_eq_find? {α : Type} (p : α → Bool) (l : List α) :
    (l.filter p).head? = l.find? p := by
  induction l with
  | nil => rfl
  | cons a l ih => cases h : p a <;> simp [List.filter_cons, List.find?_cons, h, ih]

/-- When every element satisfies the predicate, the first match is the
head of the list. -/
theorem find?_eq_head?_of_forall {α : Type} (p : α → Bool) (l : List α)
    (h : ∀ a ∈ l, p a = true) : l.find? p = l.head? := by
  cases l with
  | nil => rfl
  | cons a l => simp [List.find?_cons, h a (List.mem_cons_self a l)]

/-- Mapping a function that fixes every element of a list is the
identity. -/
theorem map_eq_self_of_eq_id {α : Type} (l : List α) (g : α → α)
    (h : ∀ a ∈ l, g a = a) : l.map g = l := by
  calc l.map g = l.map id := List.map_congr_left h
  _ = l := List.map_id l

/-! ### Branch lemmas for the repository operations -/

/-- `create_user` on a taken email: IntegrityError, rollback, state
unchanged. -/
theorem create_user_dup (db : DB) (n e : String) (a : Int)
    (h : emailTaken db e = true) :
    create_user db n e a = (Except.error (DBError.uniqueViolation "users.email"), db) := by
  simp [create_user, get_session, h]

/-- `create_user` on a fresh email: the new row is appended and
committed. -/
theorem create_user_fresh (db : DB) (n e : String) (a : Int)
    (h : emailTaken db e = false) :
    create_user db n e a =
      (Except.ok ⟨nextUserId db, n, e, a⟩,
        ⟨db.users ++ [⟨nextUserId db, n, e, a⟩], db.tasks⟩) := by
  simp [create_user, get_session, h]

/-- `create_task` with a NULL user id: NOT NULL violation, rollback,
state unchanged. -/
theorem create_task_none_err (db : DB) (t d : String) (c : Bool) :
    create_task db t d c none =
      (Except.error (DBError.notNullViolation "tasks.user_id"), db) := rfl

/-- `create_task` with a present user id: the new row is appended and
committed (the foreign key is not checked). -/
theorem create_task_some_ok (db : DB) (t d : String) (c : Bool) (U : Int) :
    create_task db t d c (some U) =
      (Except.ok ⟨nextTaskId db, t, d, c, some U⟩,
        ⟨db.users, db.tasks ++ [⟨nextTaskId db, t, d, c, some U⟩]⟩) := rfl

/-- `update_user` when the update would break the email UNIQUE index:
IntegrityError, rollback, state unchanged. -/
theorem update_user_email_err (db : DB) (fb : Option UserFilter) (k : UserUpdate)
    (h : emailConflict db (fb.getD {}) k = true) :
    update_user db fb k = (Except.error (DBError.uniqueViolation "users.email"), db) := by
  simp [update_user, get_session, h]

/-- `update_user` when the update would break the id PRIMARY KEY index:
IntegrityError, rollback, state unchanged. -/
theorem update_user_id_err (db : DB) (fb : Option UserFilter) (k : UserUpdate)
    (h1 : emailConflict db (fb.getD {}) k = false)
    (h2 : idConflict db (fb.getD {}) k = true) :
    update_user db fb k = (Except.error (DBError.uniqueViolation "users.id"), db) := by
  simp [update_user, get_session, h1, h2]

/-- `update_user` when the commit succeeds: the table is rewritten and the
first row matching the same filter post-update is returned. -/
theorem update_user_ok (db : DB) (fb : Option UserFilter) (k : UserUpdate)
    (h1 : emailConflict db (fb.getD {}) k = false)
    (h2 : idConflict db (fb.getD {}) k = false) :
    update_user db fb k =
      (Except.ok ((((updatedUsers db (fb.getD {}) k).filter
            (matchesUser (fb.getD {}))).head?).map
          (loadUser ⟨updatedUsers db (fb.getD {}) k, db.tasks⟩)),
        ⟨updatedUsers db (fb.getD {}) k, db.tasks⟩) := by
  simp [update_user, get_session, h1, h2]

/-- `create_task` never touches the users table. -/
theorem create_task_users (db : DB) (t d : String) (c : Bool) (uid : Option Int) :
    ((create_task db t d c uid).2).users = db.users := by
  cases uid <;> rfl

/-! ### Preservation of the email UNIQUE index -/

/-- Core lemma for the bulk update: when the kwargs assign a constant
email, at most one row is matched, and no unmatched row holds that email,
rewriting the matched rows keeps all emails pairwise distinct. -/
theorem pairwise_emails_update (f : UserFilter) (k : UserUpdate) (e : String)
    (hk : k.email = some e) (l : List UserRow)
    (hcount : (l.filter (matchesUser f)).length ≤ 1)
    (hout : ∀ v ∈ l, matchesUser f v = false → v.email ≠ e)
    (hpw : l.Pairwise (fun u v => u.email ≠ v.email)) :
    (l.map (fun u => if matchesUser f u then applyUpdate k u else u)).Pairwise
      (fun u v => u.email ≠ v.email) := by
  induction l with
  | nil => exact List.Pairwise.nil
  | cons u l ih =>
    rcases hpw with _ | ⟨h1, h2⟩
    have hcount' : (l.filter (matchesUser f)).length ≤ 1 := by
      rw [List.filter_cons] at hcount
      by_cases hPu : matchesUser f u = true
      · rw [if_pos hPu] at hcount
        simp only [List.length_cons] at hcount
        omega
      · rwa [if_neg hPu] at hcount
    have hout' : ∀ v ∈ l, matchesUser f v = false → v.email ≠ e :=
      fun v hv => hout v (List.mem_cons_of_mem u hv)
    rw [List.map_cons]
    refine List.Pairwise.cons ?_ (ih hcount' hout' h2)
    intro b hb
    rcases List.mem_map.mp hb with ⟨v, hv, rfl⟩
    by_cases hPu : matchesUser f u = true
    · have hue : (if matchesUser f u then applyUpdate k u else u).email = e := by
        simp [hPu, applyUpdate, hk]
      by_cases hPv : matchesUser f v = true
      · exfalso
        have hpos : 0 < (l.filter (matchesUser f)).length := by
          rw [List.length_pos]
          intro hnil
          have := List.filter_eq_nil_iff.mp hnil v hv
          exact this hPv
        rw [List.filter_cons, if_pos hPu] at hcount
        simp only [List.length_cons] at hcount
        omega
      · have hPv' : matchesUser f v = false := Bool.eq_false_iff.mpr hPv
        have hne := hout' v hv hPv'
        rw [hue, if_neg hPv]
        exact fun hEq => hne hEq.symm
    · have hPu' : matchesUser f u = false := Bool.eq_false_iff.mpr hPu
      rw [if_neg hPu]
      by_cases hPv : matchesUser f v = true
      · have hve : (if matchesUser f v then applyUpdate k v else v).email = e := by
          simp [hPv, applyUpdate, hk]
        rw [hve]
        exact hout u (List.mem_cons_self u l) hPu'
      · rw [if_neg hPv]
        exact h1 v hv

/-- `create_user` preserves pairwise-distinct emails. -/
theorem create_user_preserves_emailsUnique (db : DB) (n e : String) (a : Int)
    (h : emailsUnique db) : emailsUnique (create_user db n e a).2 := by
  cases hT : emailTaken db e with
  | true => rw [create_user_dup db n e a hT]; exact h
  | false =>
    rw [create_user_fresh db n e a hT]
    show (db.users ++ [(⟨nextUserId db, n, e, a⟩ : UserRow)]).Pairwise
      (fun u v => u.email ≠ v.email)
    rw [List.pairwise_append]
    refine ⟨h, List.pairwise_singleton _ _, ?_⟩
    intro x hx y hy
    rw [List.mem_singleton] at hy
    subst hy
    intro hEq
    have : emailTaken db e = true := by
      rw [emailTaken, List.any_eq_true]
      exact ⟨x, hx, by simp [hEq]⟩
    rw [this] at hT
    exact Bool.noConfusion hT

/-- `update_user` preserves pairwise-distinct emails. -/
theorem update_user_preserves_emailsUnique (db : DB) (fb : Option UserFilter)
    (k : UserUpdate) (h : emailsUnique db) : emailsUnique (update_user db fb k).2 := by
  by_cases h1 : emailConflict db (fb.getD {}) k = true
  · rw [update_user_email_err db fb k h1]; exact h
  have h1' : emailConflict db (fb.getD {}) k = false := Bool.eq_false_iff.mpr h1
  by_cases h2 : idConflict db (fb.getD {}) k = true
  · rw [update_user_id_err db fb k h1' h2]; exact h
  have h2' : idConflict db (fb.getD {}) k = false := Bool.eq_false_iff.mpr h2
  rw [update_user_ok db fb k h1' h2']
  show (updatedUsers db (fb.getD {}) k).Pairwise (fun u v => u.email ≠ v.email)
  rw [updatedUsers]
  cases hk : k.email with
  | none =>
    rw [List.pairwise_map]
    refine h.imp ?_
    intro a b hne
    by_cases hPa : matchesUser (fb.getD {}) a = true <;>
      by_cases hPb : matchesUser (fb.getD {}) b = true <;>
      simp [hPa, hPb, applyUpdate, hk, hne]
  | some e =>
    by_cases hm : matchedCount db (fb.getD {}) = 0
    · rw [map_eq_self_of_eq_id]
      · exact h
      · intro u hu
        have hnil : db.users.filter (matchesUser (fb.getD {})) = [] :=
          List.length_eq_zero.mp hm
        have := List.filter_eq_nil_iff.mp hnil u hu
        rw [if_neg this]
    · have hm1 : 1 ≤ matchedCount db (fb.getD {}) := Nat.one_le_iff_ne_zero.mpr hm
      rw [emailConflict, hk] at h1'
      rw [Bool.and_eq_false_iff] at h1'
      rcases h1' with hc | hc
      · rw [decide_eq_false_iff_not] at hc
        exact absurd hm1 hc
      · rw [Bool.or_eq_false_iff] at hc
        obtain ⟨hc2, hany⟩ := hc
        rw [decide_eq_false_iff_not] at hc2
        have hcount : (db.users.filter (matchesUser (fb.getD {}))).length ≤ 1 := by
          rw [matchedCount] at hc2
          omega
        have hout : ∀ v ∈ db.users, matchesUser (fb.getD {}) v = false →
            v.email ≠ e := by
          intro v hv hPv hEq
          have : db.users.any
              (fun v => !matchesUser (fb.getD {}) v && v.email == e) = true := by
            rw [List.any_eq_true]
            exact ⟨v, hv, by simp [hPv, hEq]⟩
          rw [this] at hany
          exact Bool.noConfusion hany
        exact pairwise_emails_update (fb.getD {}) k e hk db.users hcount hout h

/-- Every state this program can reach keeps emails pairwise distinct. -/
theorem reachable_emailsUnique (db : DB) (h : Reachable db) : emailsUnique db := by
  induction h with
  | init => exact List.Pairwise.nil
  | createUser db n e a _ ih => exact create_user_preserves_emailsUnique db n e a ih
  | createTask db t d c uid _ ih =>
    show ((create_task db t d c uid).2).users.Pairwise (fun u v => u.email ≠ v.email)
    rw [create_task_users]
    exact ih
  | updateUser db fb k _ ih => exact update_user_preserves_emailsUnique db fb k ih
  | getUser db fb _ ih => exact ih
  | getUsers db fb _ ih => exact ih
  | getTask db fb _ ih => exact ih
  | getUsersTasksCount db _ ih => exact ih

/-! ### Lemmas about the outer join of `get_users_tasks_count` -/

/-- Every outer-join row carries a user from the users list. -/
theorem mem_joinRows_fst (ts : List TaskRow) :
    ∀ (us : List UserRow) (r : UserRow × Option TaskRow),
      r ∈ joinRows us ts → r.1 ∈ us := by
  intro us
  induction us with
  | nil => intro r hr; exact absurd hr (List.not_mem_nil r)
  | cons u us ih =>
    intro r hr
    rw [joinRows, List.mem_append] at hr
    rcases hr with hr | hr
    · by_cases hE : (ownTasks ts u.id).isEmpty
      · rw [if_pos hE, List.mem_singleton] at hr
        subst hr
        exact List.mem_cons_self u us
      · rw [if_neg hE, List.mem_map] at hr
        rcases hr with ⟨t, _, rfl⟩
        exact List.mem_cons_self u us
    · exact List.mem_cons_of_mem u (ih r hr)

/-- Join rows of users whose id differs from `x` are dropped by the group
filter. -/
theorem joinRows_filter_ne (ts : List TaskRow) (x : Int) (us : List UserRow)
    (h : ∀ w ∈ us, (w.id == x) = false) :
    (joinRows us ts).filter (fun r => r.1.id == x) = [] := by
  rw [List.filter_eq_nil_iff]
  intro r hr
  rw [h r.1 (mem_joinRows_fst ts us r hr)]
  exact Bool.false_ne_true

/-- With pairwise-distinct user ids, the group of a user in the outer join
counts exactly the tasks it owns. -/
theorem joinRows_count (ts : List TaskRow) (u : UserRow) (us : List UserRow)
    (hu : u ∈ us) (hpw : us.Pairwise (fun a b => a.id ≠ b.id)) :
    ((joinRows us ts).filter (fun r => r.1.id == u.id)).countP
        (fun r => r.2.isSome) = (ownTasks ts u.id).length := by
  induction us with
  | nil => exact absurd hu (List.not_mem_nil u)
  | cons v us ih =>
    rcases hpw with _ | ⟨h1, h2⟩
    rw [joinRows, List.filter_append, List.countP_append]
    rcases List.mem_cons.mp hu with rfl | hu'
    · have hrest : (joinRows us ts).filter (fun r => r.1.id == u.id) = [] := by
        refine joinRows_filter_ne ts u.id us ?_
        intro w hw
        exact beq_eq_false_iff_ne.mpr (fun hEq => h1 w hw hEq.symm)
      rw [hrest, List.countP_nil]
      by_cases hE : (ownTasks ts u.id).isEmpty
      · rw [if_pos hE]
        have : ownTasks ts u.id = [] := List.isEmpty_iff.mp hE
        simp [this]
      · rw [if_neg hE, List.countP_filter, List.countP_map]
        have hall : ((fun r : UserRow × Option TaskRow => r.2.isSome && (r.1.id == u.id)) ∘
            (fun t => (u, some t))) = fun _ => true := by
          funext t
          simp
        rw [hall, List.countP_true]
        exact Nat.add_zero _
    · have hvu : (v.id == u.id) = false :=
        beq_eq_false_iff_ne.mpr (h1 u hu')
      have hchunk : ((if (ownTasks ts v.id).isEmpty then [(v, none)]
          else (ownTasks ts v.id).map (fun t => (v, some t))).filter
            (fun r => r.1.id == u.id)) = [] := by
        rw [List.filter_eq_nil_iff]
        intro r hr
        by_cases hE : (ownTasks ts v.id).isEmpty
        · rw [if_pos hE, List.mem_singleton] at hr
          subst hr
          rw [hvu]
          exact Bool.false_ne_true
        · rw [if_neg hE, List.mem_map] at hr
          rcases hr with ⟨t, _, rfl⟩
          rw [hvu]
          exact Bool.false_ne_true
      rw [hchunk, List.countP_nil, ih hu' h2]
      exact Nat.zero_add _

/-- With pairwise-distinct user ids (true of every state this program
produces), the aggregate query lists each user with the count of the
tasks it owns. -/
theorem gutc_rows (db : DB) (h : db.users.Pairwise (fun a b => a.id ≠ b.id)) :
    (get_users_tasks_count db).1
      = db.users.map (fun u => (u.id, u.name, (tasksOf db u.id).length)) := by
  show db.users.map (fun u =>
      (u.id, u.name,
        ((joinRows db.users db.tasks).filter (fun r => r.1.id == u.id)).countP
          (fun r => r.2.isSome)))
    = db.users.map (fun u => (u.id, u.name, (tasksOf db u.id).length))
  apply List.map_congr_left
  intro u hu
  rw [joinRows_count db.tasks u db.users hu h]
  rfl

/-! ### Claim theorems -/

/-- C2: every mutating operation is atomic. On any failure the returned
error is exactly the constraint violation raised at commit (no
translation, no retry) and the committed state is the state the call
started from (rollback, no partial state); on success each of the three
mutators commits its unit-of-work: the creates append exactly the new
row, and `update_user` publishes exactly the rewritten users table. -/
theorem mutators_atomic (db : DB) :
    (∀ n e a er, (create_user db n e a).1 = Except.error er →
      (create_user db n e a).2 = db ∧ er = DBError.uniqueViolation "users.email") ∧
    (∀ t d c uid er, (create_task db t d c uid).1 = Except.error er →
      (create_task db t d c uid).2 = db ∧
        er = DBError.notNullViolation "tasks.user_id") ∧
    (∀ fb k er, (update_user db fb k).1 = Except.error er →
      (update_user db fb k).2 = db ∧
        (er = DBError.uniqueViolation "users.email" ∨
          er = DBError.uniqueViolation "users.id")) ∧
    (∀ n e a u, (create_user db n e a).1 = Except.ok u →
      (create_user db n e a).2 = ⟨db.users ++ [u], db.tasks⟩) ∧
    (∀ t d c uid tk, (create_task db t d c uid).1 = Except.ok tk →
      (create_task db t d c uid).2 = ⟨db.users, db.tasks ++ [tk]⟩) ∧
    (∀ fb k r, (update_user db fb k).1 = Except.ok r →
      (update_user db fb k).2 = ⟨updatedUsers db (fb.getD {}) k, db.tasks⟩) := by
  refine ⟨?_, ?_, ?_, ?_, ?_, ?_⟩
  · intro n e a er her
    cases hT : emailTaken db e with
    | true =>
      rw [create_user_dup db n e a hT] at her ⊢
      injection her with h
      exact ⟨rfl, h.symm⟩
    | false =>
      rw [create_user_fresh db n e a hT] at her
      exact absurd her (by simp)
  · intro t d c uid er her
    cases uid with
    | none =>
      rw [create_task_none_err db t d c] at her ⊢
      injection her with h
      exact ⟨rfl, h.symm⟩
    | some U =>
      rw [create_task_some_ok db t d c U] at her
      exact absurd her (by simp)
  · intro fb k er her
    by_cases h1 : emailConflict db (fb.getD {}) k = true
    · rw [update_user_email_err db fb k h1] at her ⊢
      injection her with h
      exact ⟨rfl, Or.inl h.symm⟩
    · have h1' : emailConflict db (fb.getD {}) k = false := Bool.eq_false_iff.mpr h1
      by_cases h2 : idConflict db (fb.getD {}) k = true
      · rw [update_user_id_err db fb k h1' h2] at her ⊢
        injection her with h
        exact ⟨rfl, Or.inr h.symm⟩
      · have h2' : idConflict db (fb.getD {}) k = false := Bool.eq_false_iff.mpr h2
        rw [update_user_ok db fb k h1' h2'] at her
        exact absurd her (by simp)
  · intro n e a u hu
    cases hT : emailTaken db e with
    | true =>
      rw [create_user_dup db n e a hT] at hu
      exact absurd hu (by simp)
    | false =>
      rw [create_user_fresh db n e a hT] at hu ⊢
      injection hu with h
      rw [← h]
  · intro t d c uid tk htk
    cases uid with
    | none =>
      rw [create_task_none_err db t d c] at htk
      exact absurd htk (by simp)
    | some U =>
      rw [create_task_some_ok db t d c U] at htk ⊢
      injection htk with h
      rw [← h]
  · intro fb k r hr
    by_cases h1 : emailConflict db (fb.getD {}) k = true
    · rw [update_user_email_err db fb k h1] at hr
      exact absurd hr (by simp)
    have h1' : emailConflict db (fb.getD {}) k = false := Bool.eq_false_iff.mpr h1
    by_cases h2 : idConflict db (fb.getD {}) k = true
    · rw [update_user_id_err db fb k h1' h2] at hr
      exact absurd hr (by simp)
    have h2' : idConflict db (fb.getD {}) k = false := Bool.eq_false_iff.mpr h2
    rw [update_user_ok db fb k h1' h2']

/-- Witness for C2: on driver states, inserting a duplicate email,
inserting a task with a NULL user id, and bulk-updating user 2 to user 1
its email each fail and leave the state untouched, while a successful
update commits exactly the rewritten users table. -/
theorem mutators_atomic_witness :
    ((create_user dbU1 "X" "john.doe@example.com" 1).2 = dbU1 ∧
      DBError.uniqueViolation "users.email" = DBError.uniqueViolation "users.email") ∧
    ((create_task dbU1 "t" "d" false none).2 = dbU1 ∧
      DBError.notNullViolation "tasks.user_id" = DBError.notNullViolation "tasks.user_id") ∧
    ((update_user dbU2 (some { id := some 2 })
        { email := some "john.doe@example.com" }).2 = dbU2 ∧
      (DBError.uniqueViolation "users.email" = DBError.uniqueViolation "users.email" ∨
        DBError.uniqueViolation "users.email" = DBError.uniqueViolation "users.id")) ∧
    (update_user dbU1 (some { id := some 1 }) { age := some 111 }).2
        = ⟨updatedUsers dbU1 { id := some 1 } { age := some 111 }, dbU1.tasks⟩ :=
  ⟨(mutators_atomic dbU1).1 "X" "john.doe@example.com" 1
      (DBError.uniqueViolation "users.email") rfl,
    (mutators_atomic dbU1).2.1 "t" "d" false none
      (DBError.notNullViolation "tasks.user_id") rfl,
    (mutators_atomic dbU2).2.2.1 (some { id := some 2 })
      { email := some "john.doe@example.com" }
      (DBError.uniqueViolation "users.email") rfl,
    (mutators_atomic dbU1).2.2.2.2.2 (some { id := some 1 }) { age := some 111 }
      (some (loadUser ⟨[⟨1, "John Doe", "john.doe@example.com", 111⟩], []⟩
        ⟨1, "John Doe", "john.doe@example.com", 111⟩)) rfl⟩

/-- C3: email uniqueness is an invariant of every reachable state, and in
any state already holding a User with email E, `create_user` with E fails
with the unique-constraint error, the state is unchanged, and the
`get_users` row count is unchanged. -/
theorem email_uniqueness (db : DB) :
    (Reachable db → emailsUnique db) ∧
    (∀ (n : String) (a : Int) (E : String), (∃ u ∈ db.users, u.email = E) →
      create_user db n E a =
        (Except.error (DBError.uniqueViolation "users.email"), db) ∧
      (get_users (create_user db n E a).2 none).1.length =
        (get_users db none).1.length) := by
  constructor
  · exact reachable_emailsUnique db
  · intro n a E hE
    have hT : emailTaken db E = true := by
      rw [emailTaken, List.any_eq_true]
      rcases hE with ⟨u, hu, he⟩
      exact ⟨u, hu, by simp [he]⟩
    have hdup := create_user_dup db n E a hT
    refine ⟨hdup, ?_⟩
    rw [hdup]

/-- Witness for C3: the one-user driver state is reachable and keeps
emails unique, and re-inserting its email fails without changing the
state. -/
theorem email_uniqueness_witness :
    emailsUnique dbU1 ∧
      create_user dbU1 "Z" "john.doe@example.com" 5 =
        (Except.error (DBError.uniqueViolation "users.email"), dbU1) :=
  ⟨(email_uniqueness dbU1).1
      (Reachable.createUser emptyDB "John Doe" "john.doe@example.com" 30 Reachable.init),
    ((email_uniqueness dbU1).2 "Z" 5 "john.doe@example.com"
      ⟨⟨1, "John Doe", "john.doe@example.com", 30⟩, by decide, rfl⟩).1⟩

/-- C7: contrary to the claim, `create_task` with no user id does not
succeed: the `user_id` column is NOT NULL (its mapped type is
non-Optional), so the commit raises the NOT NULL IntegrityError, the
rollback leaves the state unchanged, and no Task is retrievable. -/
theorem create_task_without_user_id_fails (db : DB) (t d : String) (c : Bool) :
    create_task db t d c none =
      (Except.error (DBError.notNullViolation "tasks.user_id"), db) ∧
    (get_task (create_task db t d c none).2 none).1 = (get_task db none).1 :=
  ⟨rfl, rfl⟩

/-- C9: the four read operations return the stored state unchanged: no
row is added, removed, or modified. -/
theorem reads_leave_state_unchanged (db : DB) (fu fv : Option UserFilter)
    (ft : Option TaskFilter) :
    (get_user db fu).2 = db ∧ (get_users db fv).2 = db ∧
      (get_task db ft).2 = db ∧ (get_users_tasks_count db).2 = db :=
  ⟨rfl, rfl, rfl, rfl⟩

/-- C10: omitting the filter (passing None) is the same call as passing
the empty filter, in result and in effect on the state. -/
theorem omitted_filter_eq_empty_filter (db : DB) (k : UserUpdate) :
    get_user db none = get_user db (some {}) ∧
      get_users db none = get_users db (some {}) ∧
      get_task db none = get_task db (some {}) ∧
      update_user db none k = update_user db (some {}) k :=
  ⟨rfl, rfl, rfl, rfl⟩

/-! ### Query-shape helpers -/

/-- The result component of `get_user`. -/
theorem get_user_fst (db : DB) (fb : Option UserFilter) :
    (get_user db fb).1 =
      ((db.users.filter (matchesUser (fb.getD {}))).head?).map (loadUser db) := rfl

/-- The result component of `get_user` on an explicit filter. -/
theorem get_user_fst_some (db : DB) (f : UserFilter) :
    (get_user db (some f)).1 =
      ((db.users.filter (matchesUser f)).head?).map (loadUser db) := rfl

/-- A filter holding only an email constraint tests exactly the email
column. -/
theorem matchesUser_email (e : String) (v : UserRow) :
    matchesUser { email := some e } v = (v.email == e) := by
  simp [matchesUser]

/-- A filter holding only an id constraint tests exactly the id column. -/
theorem matchesUser_id (i : Int) (v : UserRow) :
    matchesUser { id := some i } v = (v.id == i) := by
  simp [matchesUser]

/-- The empty filter matches every row. -/
theorem matchesUser_empty (v : UserRow) : matchesUser {} v = true := by
  simp [matchesUser]

/-- When the UPDATE matches no row, neither uniqueness check can fire. -/
theorem conflicts_false_of_no_match (db : DB) (f : UserFilter) (k : UserUpdate)
    (h : matchedCount db f = 0) :
    emailConflict db f k = false ∧ idConflict db f k = false := by
  constructor
  · rw [emailConflict]
    cases k.email with
    | none => rfl
    | some e => simp [h]
  · rw [idConflict]
    cases k.id with
    | none => rfl
    | some i => simp [h]

/-- C6: `get_user` returns the first stored User satisfying every entry of
the equality filter (the first match in storage order, i.e. `find?`), the
empty filter selects the head of the table, the tasks collection is loaded
in the same query, and a missing match yields the explicit absent result
`none` instead of an error. -/
theorem get_user_characterization (db : DB) (fb : Option UserFilter) :
    (get_user db fb).1 = (db.users.find? (matchesUser (fb.getD {}))).map (loadUser db) ∧
    ((get_user db fb).1 = none ↔ ∀ u ∈ db.users, matchesUser (fb.getD {}) u = false) ∧
    (fb.getD {} = {} → (get_user db fb).1 = db.users.head?.map (loadUser db)) ∧
    (∀ lu, (get_user db fb).1 = some lu → lu.user ∈ db.users ∧
      matchesUser (fb.getD {}) lu.user = true ∧ lu.tasks = tasksOf db lu.user.id) := by
  have hfind : (get_user db fb).1
      = (db.users.find? (matchesUser (fb.getD {}))).map (loadUser db) := by
    rw [get_user_fst, head?_filter_eq_find?]
  refine ⟨hfind, ?_, ?_, ?_⟩
  · rw [hfind]
    constructor
    · intro h
      rw [Option.map_eq_none'] at h
      intro u hu
      exact Bool.eq_false_iff.mpr (List.find?_eq_none.mp h u hu)
    · intro h
      rw [List.find?_eq_none.mpr]
      · rfl
      · intro x hx
        rw [h x hx]
        exact Bool.false_ne_true
  · intro hemp
    rw [hfind, hemp, find?_eq_head?_of_forall]
    intro u _
    exact matchesUser_empty u
  · intro lu hlu
    rw [hfind] at hlu
    rcases Option.map_eq_some'.mp hlu with ⟨w, hw, rfl⟩
    exact ⟨List.mem_of_find?_eq_some hw, List.find?_some hw, rfl⟩

/-- Witness for C6: on the one-user driver state with the filter omitted,
`get_user` returns the head of the table, which is a stored User. -/
theorem get_user_characterization_witness :
    (get_user dbU1 none).1 = dbU1.users.head?.map (loadUser dbU1) ∧
      (loadUser dbU1 ⟨1, "John Doe", "john.doe@example.com", 30⟩).user ∈ dbU1.users :=
  ⟨(get_user_characterization dbU1 none).2.2.1 rfl,
    ((get_user_characterization dbU1 none).2.2.2
      (loadUser dbU1 ⟨1, "John Doe", "john.doe@example.com", 30⟩) rfl).1⟩

/-- C1 counterexample: `dbDangling` is reachable (SQLite does not enforce
the foreign key, so a Task with `user_id = 2` is committed while only user
id 1 exists). Creating a fresh valid user then assigns id 2, and
`get_user` by its email returns it with matching name, email and age but
with a NON-empty tasks collection: the dangling task now joins to it. -/
theorem create_then_get_counterexample :
    Reachable dbDangling ∧
    emailTaken dbDangling "b@x" = false ∧
    ((get_user (create_user dbDangling "b" "b@x" 2).2
        (some { email := some "b@x" })).1).map
      (fun lu => (lu.user.name, lu.user.email, lu.user.age)) = some ("b", "b@x", 2) ∧
    ((get_user (create_user dbDangling "b" "b@x" 2).2
        (some { email := some "b@x" })).1).map (fun lu => lu.tasks.length) = some 1 :=
  ⟨Reachable.createTask (create_user emptyDB "a" "a@x" 1).2 "t" "d" false (some 2)
      (Reachable.createUser emptyDB "a" "a@x" 1 Reachable.init),
    rfl, rfl, rfl⟩

/-- C1 (amended): for all valid inputs with a fresh email, `create_user`
followed by `get_user` on that email returns a User with matching name,
email and age; its tasks collection is empty provided no stored Task
already references the id the new User receives (which holds whenever
every Task points at an existing User, but is not guaranteed because the
foreign key is unenforced). -/
theorem create_then_get_amended (db : DB) (n e : String) (a : Int)
    (hfresh : emailTaken db e = false) :
    ∃ u, (create_user db n e a).1 = Except.ok u ∧
      u.name = n ∧ u.email = e ∧ u.age = a ∧
      ∃ lu, (get_user (create_user db n e a).2 (some { email := some e })).1
          = some lu ∧ lu.user = u ∧
        ((∀ t ∈ db.tasks, t.user_id ≠ some (nextUserId db)) → lu.tasks = []) := by
  rw [create_user_fresh db n e a hfresh]
  refine ⟨⟨nextUserId db, n, e, a⟩, rfl, rfl, rfl, rfl, ?_⟩
  rw [get_user_fst_some]
  have hfilter : ((⟨db.users ++ [⟨nextUserId db, n, e, a⟩], db.tasks⟩ : DB)).users.filter
      (matchesUser { email := some e }) = [⟨nextUserId db, n, e, a⟩] := by
    show (db.users ++ [(⟨nextUserId db, n, e, a⟩ : UserRow)]).filter
      (matchesUser { email := some e }) = [⟨nextUserId db, n, e, a⟩]
    rw [List.filter_append]
    have h1 : db.users.filter (matchesUser { email := some e }) = [] := by
      rw [List.filter_eq_nil_iff]
      intro v hv hp
      rw [matchesUser_email] at hp
      have := List.any_eq_false.mp hfresh v hv
      exact this hp
    have h2 : [(⟨nextUserId db, n, e, a⟩ : UserRow)].filter
        (matchesUser { email := some e }) = [⟨nextUserId db, n, e, a⟩] := by
      rw [List.filter_cons]
      rw [matchesUser_email]
      simp
    rw [h1, h2, List.nil_append]
  rw [hfilter]
  refine ⟨loadUser ⟨db.users ++ [⟨nextUserId db, n, e, a⟩], db.tasks⟩
      ⟨nextUserId db, n, e, a⟩, rfl, rfl, ?_⟩
  intro hno
  show tasksOf ⟨db.users ++ [⟨nextUserId db, n, e, a⟩], db.tasks⟩ (nextUserId db) = []
  rw [tasksOf, ownTasks, List.filter_eq_nil_iff]
  intro t ht hp
  exact hno t ht (eq_of_beq hp)

/-- Witness for the amended C1: on the one-user driver state and a fresh
email, the created user is returned by email with matching fields and an
empty tasks collection. -/
theorem create_then_get_amended_witness :
    emailTaken dbU1 "new@example.com" = false ∧
      ∃ u, (create_user dbU1 "N" "new@example.com" 7).1 = Except.ok u ∧
        u.name = "N" ∧ u.email = "new@example.com" ∧ u.age = 7 ∧
        ∃ lu, (get_user (create_user dbU1 "N" "new@example.com" 7).2
            (some { email := some "new@example.com" })).1 = some lu ∧ lu.user = u ∧
          ((∀ t ∈ dbU1.tasks, t.user_id ≠ some (nextUserId dbU1)) → lu.tasks = []) :=
  ⟨rfl, create_then_get_amended dbU1 "N" "new@example.com" 7 rfl⟩

/-- C4: `update_user` applies the kwargs to every row matching the
equality filter and commits; the returned value is the first row matching
the same filter post-update, with its tasks loaded, and therefore carries
every updated field value; when the filter matches no row, no row is
modified and the result is the explicit absent value. -/
theorem update_user_characterization (db : DB) (fb : Option UserFilter)
    (k : UserUpdate) :
    (db.users.filter (matchesUser (fb.getD {})) = [] →
      update_user db fb k = (Except.ok none, db)) ∧
    (∀ r db2, update_user db fb k = (Except.ok r, db2) →
      db2.users = updatedUsers db (fb.getD {}) k ∧ db2.tasks = db.tasks ∧
      r = ((db2.users.find? (matchesUser (fb.getD {}))).map (loadUser db2)) ∧
      (∀ lu, r = some lu →
        (∀ i, k.id = some i → lu.user.id = i) ∧
        (∀ s, k.name = some s → lu.user.name = s) ∧
        (∀ s, k.email = some s → lu.user.email = s) ∧
        (∀ a, k.age = some a → lu.user.age = a))) := by
  constructor
  · intro hnil
    have hm : matchedCount db (fb.getD {}) = 0 := by
      rw [matchedCount, hnil]
      rfl
    obtain ⟨h1, h2⟩ := conflicts_false_of_no_match db (fb.getD {}) k hm
    rw [update_user_ok db fb k h1 h2]
    have hid : updatedUsers db (fb.getD {}) k = db.users := by
      rw [updatedUsers]
      apply map_eq_self_of_eq_id
      intro u hu
      rw [if_neg]
      intro hmatch
      exact List.filter_eq_nil_iff.mp hnil u hu hmatch
    rw [hid, hnil]
    rfl
  · intro r db2 hr
    by_cases h1 : emailConflict db (fb.getD {}) k = true
    · rw [update_user_email_err db fb k h1] at hr
      exact absurd (congrArg Prod.fst hr) (by simp)
    have h1' : emailConflict db (fb.getD {}) k = false := Bool.eq_false_iff.mpr h1
    by_cases h2 : idConflict db (fb.getD {}) k = true
    · rw [update_user_id_err db fb k h1' h2] at hr
      exact absurd (congrArg Prod.fst hr) (by simp)
    have h2' : idConflict db (fb.getD {}) k = false := Bool.eq_false_iff.mpr h2
    rw [update_user_ok db fb k h1' h2'] at hr
    have hdb2 : db2 = ⟨updatedUsers db (fb.getD {}) k, db.tasks⟩ :=
      (congrArg Prod.snd hr).symm
    have hrval := congrArg Prod.fst hr
    injection hrval with hrv
    subst hdb2
    refine ⟨rfl, rfl, ?_, ?_⟩
    · rw [← hrv]
      show ((((updatedUsers db (fb.getD {}) k).filter
          (matchesUser (fb.getD {}))).head?).map _)
        = (((updatedUsers db (fb.getD {}) k).find? (matchesUser (fb.getD {}))).map _)
      rw [head?_filter_eq_find?]
    · intro lu hlu
      rw [← hrv] at hlu
      rw [head?_filter_eq_find?] at hlu
      rcases Option.map_eq_some'.mp hlu with ⟨w, hw, hload⟩
      have hwP : matchesUser (fb.getD {}) w = true := List.find?_some hw
      have hwmem := List.mem_of_find?_eq_some hw
      have hwmem' : w ∈ (updatedUsers db (fb.getD {}) k) := hwmem
      rw [updatedUsers, List.mem_map] at hwmem'
      rcases hwmem' with ⟨u0, _, hu0⟩
      have hlu_user : lu.user = w := by rw [← hload]; rfl
      by_cases hP0 : matchesUser (fb.getD {}) u0 = true
      · rw [if_pos hP0] at hu0
        rw [hlu_user, ← hu0]
        refine ⟨?_, ?_, ?_, ?_⟩
        · intro i hi; simp [applyUpdate, hi]
        · intro s hs; simp [applyUpdate, hs]
        · intro s hs; simp [applyUpdate, hs]
        · intro a ha; simp [applyUpdate, ha]
      · exfalso
        rw [if_neg hP0] at hu0
        rw [hu0] at hP0
        exact hP0 hwP

/-- Witness for C4: updating age to 111 on the existing id 1 rewrites the
single row; on the absent id 99 over three users, the call is a no-op
returning the absent value. -/
theorem update_user_characterization_witness :
    ((update_user dbU1 (some { id := some 1 }) { age := some 111 }).2).users
        = updatedUsers dbU1 { id := some 1 } { age := some 111 } ∧
      update_user dbU3 (some { id := some 99 }) { age := some 111 }
        = (Except.ok none, dbU3) :=
  ⟨((update_user_characterization dbU1 (some { id := some 1 })
        { age := some 111 }).2
      (some (loadUser ⟨[⟨1, "John Doe", "john.doe@example.com", 111⟩], []⟩
        ⟨1, "John Doe", "john.doe@example.com", 111⟩))
      ⟨[⟨1, "John Doe", "john.doe@example.com", 111⟩], []⟩ rfl).1,
    (update_user_characterization dbU3 (some { id := some 99 })
        { age := some 111 }).1 rfl⟩

/-- C5: the aggregate query yields one `(id, name, task count)` row per
stored User, in storage order, counting for each User exactly the Task
rows it owns, with count 0 for a task-less User; on the driver state with
3 users of which exactly one owns exactly one task, it returns 3 rows with
counts 0, 0 and 1, and the counts sum to the total task count. -/
theorem users_tasks_count_characterization :
    (∀ db : DB, db.users.Pairwise (fun a b => a.id ≠ b.id) →
      (get_users_tasks_count db).1
        = db.users.map (fun u => (u.id, u.name, (tasksOf db u.id).length))) ∧
    (∀ db : DB, (get_users_tasks_count db).1.length = db.users.length) ∧
    ((get_users_tasks_count dbDriver).1.length = 3 ∧
      ((get_users_tasks_count dbDriver).1.filter (fun r => r.2.2 == 0)).length = 2 ∧
      ((get_users_tasks_count dbDriver).1.filter (fun r => r.2.2 == 1)).length = 1 ∧
      ((get_users_tasks_count dbDriver).1.map (fun r => r.2.2)).sum
        = dbDriver.tasks.length) := by
  refine ⟨gutc_rows, ?_, rfl, rfl, rfl, rfl⟩
  intro db
  exact List.length_map db.users _

/-- Witness for C5: the driver state has pairwise-distinct user ids, and
there the aggregate rows are exactly the per-user owned-task counts. -/
theorem users_tasks_count_witness :
    dbDriver.users.Pairwise (fun a b => a.id ≠ b.id) ∧
      (get_users_tasks_count dbDriver).1
        = dbDriver.users.map (fun u => (u.id, u.name, (tasksOf dbDriver u.id).length)) :=
  ⟨by decide, users_tasks_count_characterization.1 dbDriver (by decide)⟩

/-- C8: creating a Task for an existing User id and then fetching that
User by id returns a User (with that id) whose loaded tasks collection
contains the created Task. -/
theorem create_task_then_get_user (db : DB) (t d : String) (c : Bool) (U : Int)
    (hU : ∃ u ∈ db.users, u.id = U) :
    ∃ tk, (create_task db t d c (some U)).1 = Except.ok tk ∧
      ∃ lu, (get_user (create_task db t d c (some U)).2 (some { id := some U })).1
          = some lu ∧ lu.user.id = U ∧ tk ∈ lu.tasks := by
  rw [create_task_some_ok db t d c U]
  refine ⟨⟨nextTaskId db, t, d, c, some U⟩, rfl, ?_⟩
  rw [get_user_fst_some, head?_filter_eq_find?]
  have hsome : ((⟨db.users, db.tasks ++ [⟨nextTaskId db, t, d, c, some U⟩]⟩ : DB)).users.find?
      (matchesUser { id := some U }) |>.isSome := by
    rw [List.find?_isSome]
    rcases hU with ⟨u, hu, hid⟩
    refine ⟨u, hu, ?_⟩
    rw [matchesUser_id]
    simp [hid]
  rcases Option.isSome_iff_exists.mp hsome with ⟨w, hw⟩
  have hwid : w.id = U := by
    have hp := List.find?_some hw
    rw [matchesUser_id] at hp
    exact eq_of_beq hp
  rw [hw]
  refine ⟨_, rfl, hwid, ?_⟩
  show (⟨nextTaskId db, t, d, c, some U⟩ : TaskRow) ∈
    ownTasks (db.tasks ++ [⟨nextTaskId db, t, d, c, some U⟩]) w.id
  rw [ownTasks, List.mem_filter]
  constructor
  · exact List.mem_append.mpr (Or.inr (List.mem_singleton.mpr rfl))
  · rw [hwid]
    simp

/-- Witness for C8: on the one-user driver state, the driver task created
for user id 1 appears in the tasks collection returned by
`get_user` with the id filter. -/
theorem create_task_then_get_user_witness :
    (∃ u ∈ dbU1.users, u.id = (1 : Int)) ∧
      ∃ tk, (create_task dbU1 "Buy groceries" "Buy groceries" false (some 1)).1
          = Except.ok tk ∧
        ∃ lu, (get_user (create_task dbU1 "Buy groceries" "Buy groceries" false
            (some 1)).2 (some { id := some 1 })).1 = some lu ∧
          lu.user.id = 1 ∧ tk ∈ lu.tasks :=
  ⟨⟨⟨1, "John Doe", "john.doe@example.com", 30⟩, by decide, rfl⟩,
    create_task_then_get_user dbU1 "Buy groceries" "Buy groceries" false 1
      ⟨⟨1, "John Doe", "john.doe@example.com", 30⟩, by decide, rfl⟩⟩
